import Mathlib

/-!
Verification of the Turtle CLI repository (`cli.py`, `setup/wizard.py`) and of
the agent-loop core described by its specification.

Strings manipulated by the Python code are modelled as `List Char` so that
`strip`, `split` and line handling can be reasoned about by structural
induction.  The process environment is a partial map from variable names to
values; the file system is an explicit record of the two files the program
touches.  Components of the repository that are imported by `cli.py` but whose
source is not part of the repository snapshot (conversation manager, tool
registry, tool-orchestrating loops, streaming) are modelled from the
specification text; each such definition says so in its doc comment.
-/

/-- Python strings, modelled as lists of characters. -/
abbrev PyStr := List Char

/-- The characters Python's `str.strip()` removes: everything
`Py_UNICODE_ISSPACE` accepts — the ASCII whitespace and separators
`'\t'`-`'\r'`, `'\x1c'`-`'\x1f'`, `' '`, plus `'\x85'` (NEL), `'\xa0'`
(NBSP) and the Unicode space characters. -/
def pyIsSpace (c : Char) : Bool :=
  c == ' ' || c == '\t' || c == '\n' || c == '\x0b' || c == '\x0c' || c == '\r'
    || c == '\x1c' || c == '\x1d' || c == '\x1e' || c == '\x1f'
    || c == '\x85' || c == '\xa0' || c == '\u1680'
    || ('\u2000' ≤ c && c ≤ '\u200A')
    || c == '\u2028' || c == '\u2029' || c == '\u202F' || c == '\u205F'
    || c == '\u3000'

/-- Remove leading Python whitespace. -/
def lstrip : PyStr → PyStr
  | [] => []
  | c :: cs => if pyIsSpace c then lstrip cs else c :: cs

/-- Remove trailing Python whitespace. -/
def rstrip (s : PyStr) : PyStr :=
  (lstrip s.reverse).reverse

/-- Python `str.strip()`: remove leading and trailing whitespace. -/
def pyStrip (s : PyStr) : PyStr :=
  rstrip (lstrip s)

/-- Python `s.split('=', 1)` when it yields two parts: the text before the
first `'='` and everything after it.  `none` when `'='` does not occur, the
case in which the tuple unpacking `key, value = ...` in `load_config` raises
`ValueError`. -/
def splitOnceEq : PyStr → Option (PyStr × PyStr)
  | [] => none
  | c :: cs =>
    if c = '=' then some ([], cs)
    else
      match splitOnceEq cs with
      | some (k, v) => some (c :: k, v)
      | none => none

/-- Universal-newline translation performed by Python's text-mode `open`:
`"\r\n"` and `"\r"` both become `"\n"`. -/
def univNewlines : PyStr → PyStr
  | [] => []
  | c :: rest =>
    if c = '\r' then
      match rest with
      | '\n' :: rest2 => '\n' :: univNewlines rest2
      | other => '\n' :: univNewlines other
    else c :: univNewlines rest

/-- Split translated file content into lines the way `for line in f` yields
them: every line keeps its terminating `'\n'`, and a final segment without a
terminator is yielded as-is (and not at all when empty). -/
def splitLinesAux (acc : PyStr) : PyStr → List PyStr
  | [] => if acc = [] then [] else [acc.reverse]
  | c :: rest =>
    if c = '\n' then (acc.reverse ++ ['\n']) :: splitLinesAux [] rest
    else splitLinesAux (c :: acc) rest

/-- The lines `for line in f` yields for a text-mode file with the given raw
content. -/
def readLines (content : PyStr) : List PyStr :=
  splitLinesAux [] (univNewlines content)

/-- The process environment: a partial map from variable names to values. -/
def Env : Type := PyStr → Option PyStr

/-- `os.environ[k] = v` when the assignment succeeds. -/
def setEnv (env : Env) (k v : PyStr) : Env :=
  fun k' => if k' = k then some v else env k'

/-- `os.environ[k] = v` with its error paths: CPython raises
`ValueError: embedded null byte` when the key or value contains a NUL
byte, and the underlying `setenv` rejects an empty variable name (an `'='`
inside the key would also be rejected, but a key produced by
`split('=', 1)` never contains one). -/
def environSet (env : Env) (k v : PyStr) : Option Env :=
  if '\x00' ∈ k ∨ '\x00' ∈ v then none
  else if k = [] then none
  else some (setEnv env k v)

/-- One iteration of the `.env`-parsing loop in `load_config`
(`cli.py` lines 42-45): a line that is non-blank after stripping and does not
start with `'#'` is split at the first `'='` and written into the
environment; a line without `'='` makes the unpacking raise (`none`), and
the `os.environ` assignment itself can raise (`environSet`). -/
def processLine (line : PyStr) (env : Env) : Option Env :=
  if pyStrip line ≠ [] ∧ line.head? ≠ some '#' then
    match splitOnceEq (pyStrip line) with
    | some (k, v) => environSet env k v
    | none => none
  else
    some env

/-- The whole `.env`-parsing loop over the file's lines. -/
def applyEnvLines : List PyStr → Env → Option Env
  | [], env => some env
  | l :: ls, env =>
    match processLine l env with
    | none => none
    | some env' => applyEnvLines ls env'

/-- The configuration dict built by `load_config`: its keys are exactly
`provider`, `model`, `api_key`; each value is `os.getenv` of the matching
variable (`none` models Python `None`). -/
structure Config where
  provider : Option PyStr
  model : Option PyStr
  api_key : Option PyStr
deriving Repr, DecidableEq

/-- Reading the three `TURTLE_*` variables from the environment
(`cli.py` lines 48-50). -/
def configFromEnv (env : Env) : Config :=
  { provider := env "TURTLE_PROVIDER".toList
    model := env "TURTLE_MODEL".toList
    api_key := env "TURTLE_API_KEY".toList }

/-- `load_config` (`cli.py` lines 34-52).  `envFile` is the content of `.env`
when that file exists.  `none` is an uncaught `ValueError` escaping the
function; otherwise the updated environment and the returned config dict. -/
def load_config (envFile : Option PyStr) (env : Env) : Option (Env × Config) :=
  match envFile with
  | none => some (env, configFromEnv env)
  | some content =>
    match applyEnvLines (readLines content) env with
    | none => none
    | some env' => some (env', configFromEnv env')

/-- Python truthiness of `config.get(field)`: present and non-empty. -/
def truthy : Option PyStr → Bool
  | none => false
  | some s => s ≠ []

/-- `validate_config` (`cli.py` lines 55-61). -/
def validate_config (c : Config) : Bool :=
  truthy c.provider && truthy c.model && truthy c.api_key

/-! ## Setup wizard (`setup/wizard.py`) -/

/-- The `.turtle/config.json` document written by the wizard. -/
structure ConfigJson where
  provider : PyStr
  model : PyStr
  setup_completed : Bool
deriving Repr, DecidableEq

/-- The part of the file system the program touches: `.env` and
`.turtle/config.json`, each `none` when absent. -/
structure FS where
  envFile : Option PyStr
  configFile : Option ConfigJson
deriving Repr, DecidableEq

/-- `SetupWizard.is_first_run` (`wizard.py` lines 16-17): neither file exists. -/
def is_first_run (fs : FS) : Bool :=
  fs.envFile.isNone && fs.configFile.isNone

/-- The `.env` content written by `SetupWizard.save_configuration`
(`wizard.py` lines 85-89). -/
def envFileContent (p m k : PyStr) : PyStr :=
  "# Turtle CLI Configuration\nTURTLE_PROVIDER=".toList ++ p
    ++ "\nTURTLE_MODEL=".toList ++ m
    ++ "\nTURTLE_API_KEY=".toList ++ k ++ "\n".toList

/-- `SetupWizard.save_configuration` (`wizard.py` lines 84-102) when both
writes succeed: `.env` gets the template above, `.turtle/config.json` the
provider, model and `setup_completed: true`. -/
def save_configuration (fs : FS) (p m k : PyStr) : FS :=
  { fs with
    envFile := some (envFileContent p m k)
    configFile := some { provider := p, model := m, setup_completed := true } }

/-- `save_configuration` with each of its two file writes allowed to fail
(an `open(...).write` or `json.dump` raising).  Returns whether the whole
call completed plus the resulting file system: a failed `.env` write leaves
everything untouched; a failed config write leaves the already-written
`.env`. -/
def save_attempt (fs : FS) (p m k : PyStr) (envOk configOk : Bool) :
    Bool × FS :=
  if ¬envOk then (false, fs)
  else
    let fs1 := { fs with envFile := some (envFileContent p m k) }
    if ¬configOk then (false, fs1)
    else (true, { fs1 with
      configFile := some { provider := p, model := m, setup_completed := true } })

/-- The provider table of `SetupWizard.get_provider_choice`
(`wizard.py` lines 27-31), keyed by the stripped input. -/
def providerOfChoice (c : PyStr) : Option PyStr :=
  if c = "1".toList then some "openai".toList
  else if c = "2".toList then some "anthropic".toList
  else if c = "3".toList then some "gemini".toList
  else none

/-- `SetupWizard.get_provider_choice` (`wizard.py` lines 26-42) with the
terminal input stream explicit: invalid entries repeat the prompt; a valid
entry returns its provider and the unconsumed inputs.  Exhausting the stream
models `input()` raising `EOFError` (`none`). -/
def get_provider_choice : List PyStr → Option (PyStr × List PyStr)
  | [] => none
  | i :: rest =>
    match providerOfChoice (pyStrip i) with
    | some p => some (p, rest)
    | none => get_provider_choice rest

/-- The per-provider model lists of `SetupWizard.get_model_choice`
(`wizard.py` lines 45-51), including the `models.get(provider, [...])`
default. -/
def provider_models (provider : PyStr) : List PyStr :=
  if provider = "openai".toList then
    ["gpt-4".toList, "gpt-4-turbo".toList, "gpt-3.5-turbo".toList]
  else if provider = "anthropic".toList then
    ["claude-3-opus".toList, "claude-3-sonnet".toList, "claude-3-haiku".toList]
  else if provider = "gemini".toList then
    ["gemini-1.5-flash".toList, "gemini-1.5-pro".toList]
  else [provider ++ "-default".toList]

/-- Start code points of the Unicode `Nd` decimal-digit runs; each run is
ten consecutive code points carrying the values `0`-`9`, and `int()` accepts
a digit from any of them. -/
def ndBases : List Nat :=
  [0x30, 0x660, 0x6F0, 0x7C0, 0x966, 0x9E6, 0xA66, 0xAE6, 0xB66, 0xBE6,
   0xC66, 0xCE6, 0xD66, 0xDE6, 0xE50, 0xED0, 0xF20, 0x1040, 0x1090, 0x17E0,
   0x1810, 0x1946, 0x19D0, 0x1A80, 0x1A90, 0x1B50, 0x1BB0, 0x1C40, 0x1C50,
   0xA620, 0xA8D0, 0xA900, 0xA9D0, 0xA9F0, 0xAA50, 0xABF0, 0xFF10,
   0x104A0, 0x10D30, 0x11066, 0x110F0, 0x11136, 0x111D0, 0x112F0, 0x11450,
   0x114D0, 0x11650, 0x116C0, 0x11730, 0x118E0, 0x11950, 0x11C50, 0x11D50,
   0x11DA0, 0x11F50, 0x16A60, 0x16AC0, 0x16B50, 0x1D7CE, 0x1D7D8, 0x1D7E2,
   0x1D7EC, 0x1D7F6, 0x1E140, 0x1E2F0, 0x1E4F0, 0x1E950, 0x1FBF0]

/-- The decimal value of a character `int()` accepts as a digit (any Unicode
`Nd` decimal digit, not only ASCII), `none` otherwise. -/
def pyDigitVal (c : Char) : Option Nat :=
  ndBases.findSome? fun b =>
    if b ≤ c.toNat ∧ c.toNat ≤ b + 9 then some (c.toNat - b) else none

/-- Digits of a Python integer literal after its first digit: further digits,
with single underscores allowed only between digits. -/
def digRest : List Char → Option (List Nat)
  | [] => some []
  | '_' :: rest =>
    match rest with
    | [] => none
    | c :: rest2 =>
      match pyDigitVal c with
      | some d => (digRest rest2).map fun ds => d :: ds
      | none => none
  | c :: rest =>
    match pyDigitVal c with
    | some d => (digRest rest).map fun ds => d :: ds
    | none => none

/-- An unsigned run of digits (underscore-separated), as a number. -/
def parseUnsignedDigits : List Char → Option Nat
  | [] => none
  | c :: rest =>
    match pyDigitVal c with
    | some d =>
      (digRest rest).map fun ds => (d :: ds).foldl (fun a v => 10 * a + v) 0
    | none => none

/-- Python `int(s)` on ASCII input: surrounding whitespace stripped, an
optional sign, then digits; `none` models the `ValueError`. -/
def pyInt (s : PyStr) : Option Int :=
  match pyStrip s with
  | '+' :: rest => (parseUnsignedDigits rest).map Int.ofNat
  | '-' :: rest => (parseUnsignedDigits rest).map fun n => -(n : Int)
  | l => (parseUnsignedDigits l).map Int.ofNat

/-- The retry loop of `SetupWizard.get_model_choice`
(`wizard.py` lines 53-65) over a fixed candidate list: an input that parses
as an integer in `1..len` selects that model (1-based); anything else,
including `int()` raising, repeats the prompt. -/
def modelChoiceLoop (ms : List PyStr) : List PyStr → Option (PyStr × List PyStr)
  | [] => none
  | i :: rest =>
    match pyInt i with
    | some n =>
      if 1 ≤ n ∧ n ≤ (ms.length : Int) then some (ms.getD (n - 1).toNat [], rest)
      else modelChoiceLoop ms rest
    | none => modelChoiceLoop ms rest

/-- `SetupWizard.get_model_choice` (`wizard.py` lines 44-65). -/
def get_model_choice (provider : PyStr) (inputs : List PyStr) :
    Option (PyStr × List PyStr) :=
  modelChoiceLoop (provider_models provider) inputs

/-- `SetupWizard.get_api_key` (`wizard.py` lines 67-75): repeat until the
stripped input is non-empty. -/
def get_api_key : List PyStr → Option (PyStr × List PyStr)
  | [] => none
  | i :: rest =>
    if pyStrip i ≠ [] then some (pyStrip i, rest) else get_api_key rest

/-- `SetupWizard.validate_config` (`wizard.py` lines 77-82). -/
def validate_config_wiz (p m k : PyStr) : Bool :=
  !p.isEmpty && !m.isEmpty && !k.isEmpty

/-- The shared prompt/validate/persist body of `run_setup` and `force_setup`
(`wizard.py` lines 126-136 and 149-159).  Result: did the call return `True`,
the resulting file system, and the unconsumed inputs.  An exhausted input
stream (an `EOFError` from `input()`) is caught by the `except Exception`
handler, returning `False` with nothing written. -/
def setupSteps (fs : FS) (envOk configOk : Bool) (inputs : List PyStr) :
    Bool × FS × List PyStr :=
  match get_provider_choice inputs with
  | none => (false, fs, [])
  | some (p, r1) =>
    match get_model_choice p r1 with
    | none => (false, fs, [])
    | some (m, r2) =>
      match get_api_key r2 with
      | none => (false, fs, [])
      | some (k, r3) =>
        if validate_config_wiz p m k then
          let res := save_attempt fs p m k envOk configOk
          (res.1, res.2, r3)
        else (false, fs, r3)

/-- `SetupWizard.run_setup` (`wizard.py` lines 118-142). -/
def run_setup (fs : FS) (envOk configOk : Bool) (inputs : List PyStr) :
    Bool × FS × List PyStr :=
  if ¬is_first_run fs then (false, fs, inputs)
  else setupSteps fs envOk configOk inputs

/-- `SetupWizard.force_setup` (`wizard.py` lines 144-165): same body, no
first-run check. -/
def force_setup (fs : FS) (envOk configOk : Bool) (inputs : List PyStr) :
    Bool × FS × List PyStr :=
  setupSteps fs envOk configOk inputs

/-! ## Agent-loop core

The modules `llm.conversation`, `tools.protocol`, `tools.loop` and
`tools.streaming` are imported by `cli.py` but their source is not part of
the repository snapshot; everything below is modelled from the
specification (sections 3, 4.2-4.4, 7). -/

/-- Modelled from the spec: the role of a transcript entry (spec section 3,
"Message"). -/
inductive Role
  | system
  | user
  | assistant
  | toolResult
deriving Repr, DecidableEq

/-- Modelled from the spec: a model-issued tool-call request — invocation id,
tool name, argument payload (spec section 3). -/
structure ToolCallReq where
  id : String
  name : String
  args : String
deriving Repr, DecidableEq

/-- Modelled from the spec: one transcript entry — role, content, the ordered
tool-call requests it carries, and for `tool-result` entries the invocation id
it answers (spec section 3). -/
structure Message where
  role : Role
  content : String
  tool_calls : List ToolCallReq
  tool_call_id : Option String
deriving Repr, DecidableEq

/-- A `system` message. -/
def systemMsg (t : String) : Message :=
  { role := .system, content := t, tool_calls := [], tool_call_id := none }

/-- A `user` message. -/
def userMsg (t : String) : Message :=
  { role := .user, content := t, tool_calls := [], tool_call_id := none }

/-- The `assistant` message holding a final answer. -/
def assistantFinal (t : String) : Message :=
  { role := .assistant, content := t, tool_calls := [], tool_call_id := none }

/-- The `assistant` message recording a batch of tool-call requests (content
empty: a purely tool-call record, spec section 3). -/
def assistantToolMsg (reqs : List ToolCallReq) : Message :=
  { role := .assistant, content := "", tool_calls := reqs, tool_call_id := none }

/-- The `tool-result` message answering invocation `i`. -/
def toolResultMsg (i : String) (t : String) : Message :=
  { role := .toolResult, content := t, tool_calls := [], tool_call_id := some i }

/-- Invocation ids requested somewhere in the transcript but not yet answered
by a `tool-result` entry. -/
def openToolCallIds (msgs : List Message) : List String :=
  ((msgs.map fun m => m.tool_calls.map (·.id)).flatten).filter
    fun i => i ∉ msgs.filterMap (·.tool_call_id)

/-- Modelled from the spec: the failure taxonomy of the conversation append
operation (spec sections 4.2 and 7). -/
inductive AppendError
  | danglingToolResult
deriving Repr, DecidableEq

/-- Modelled from the spec: `append(message)` (spec section 4.2) — adds to the
tail, failing with `DanglingToolResult` when a `tool-result` has no matching
open invocation. -/
def appendMessage (msgs : List Message) (m : Message) :
    Except AppendError (List Message) :=
  if m.role = Role.toolResult then
    match m.tool_call_id with
    | some i =>
      if i ∈ openToolCallIds msgs then .ok (msgs ++ [m])
      else .error .danglingToolResult
    | none => .error .danglingToolResult
  else .ok (msgs ++ [m])

/-- Modelled from the spec: `reset(keep_system)` (spec sections 4.2 and 8,
called `reset_conversation(keep_system_prompt=...)` at `cli.py` line 104):
clear the transcript, keeping exactly the system message — the first entry,
per the spec section 3 invariant — when asked to and one exists. -/
def reset_conversation (keep_system_prompt : Bool) (msgs : List Message) :
    List Message :=
  if keep_system_prompt then
    match msgs.head? with
    | some m => if m.role = Role.system then [m] else []
    | none => []
  else []

/-- Modelled from the spec: an atomic model reply — final text or an ordered
list of tool-call requests (spec sections 6 and 9, tagged variant). -/
inductive Reply
  | final (text : String)
  | toolCalls (reqs : List ToolCallReq)
deriving Repr, DecidableEq

/-- The requests carried by a reply. -/
def reqsOf : Reply → List ToolCallReq
  | .final _ => []
  | .toolCalls reqs => reqs

/-- Does the reply carry at least one tool-call request? -/
def isToolCallReply : Reply → Bool
  | .final _ => false
  | .toolCalls reqs => reqs ≠ []

/-- Modelled from the spec: the tool-result messages produced for one batch of
requests, resolved one at a time in the order the model issued them (spec
sections 4.3 and 5).  `dispatch` abstracts registry lookup plus tool
invocation; failures are already folded into the result text (spec section
4.3). -/
def toolResultsFor (dispatch : ToolCallReq → String) (reqs : List ToolCallReq) :
    List Message :=
  reqs.map fun r => toolResultMsg r.id (dispatch r)

/-- The messages one tool-dispatch cycle appends: the assistant message
carrying the requests, then one tool-result per request. -/
def cycleBlock (dispatch : ToolCallReq → String) (reqs : List ToolCallReq) :
    List Message :=
  assistantToolMsg reqs :: toolResultsFor dispatch reqs

/-- Modelled from the spec: outcome of one `run` call — final text, the
`ToolLoopExceeded` failure carrying how many tool cycles had occurred (spec
section 7), or the backend script running out; each outcome carries the
transcript as it stood. -/
inductive RunResult
  | ok (text : String) (transcript : List Message)
  | toolLoopExceeded (cycles : Nat) (transcript : List Message)
  | backendExhausted (transcript : List Message)
deriving Repr, DecidableEq

/-- Modelled from the spec: the synchronous agent loop (spec section 4.3).
`rem` is how many further model calls the iteration ceiling still allows,
`iters` how many tool-dispatch cycles have run; the backend is a script of
replies.  A final reply appends the assistant message and returns its text; a
tool-call reply appends the cycle's block and loops; an exhausted ceiling
fails with `ToolLoopExceeded`, transcript preserved. -/
def loopAux (dispatch : ToolCallReq → String) :
    Nat → Nat → List Reply → List Message → RunResult
  | 0, iters, _, msgs => .toolLoopExceeded iters msgs
  | _ + 1, _, [], msgs => .backendExhausted msgs
  | rem + 1, iters, reply :: script, msgs =>
    match reply with
    | .final t => .ok t (msgs ++ [assistantFinal t])
    | .toolCalls reqs =>
      loopAux dispatch rem (iters + 1) script (msgs ++ cycleBlock dispatch reqs)

/-- Modelled from the spec: `run(user_text)` (spec section 4.3) — append the
`user` message, then drive the loop under the configured ceiling
`maxIters`. -/
def execute_loop (dispatch : ToolCallReq → String) (maxIters : Nat)
    (script : List Reply) (user_text : String) (msgs : List Message) :
    RunResult :=
  loopAux dispatch maxIters 0 script (msgs ++ [userMsg user_text])

/-- Modelled from the spec: one fragment of a streamed reply — plain text,
forwarded as it arrives, or a tool-call request already assembled from its
buffered partial fragments, since only complete requests can be dispatched
(spec section 4.4). -/
inductive Fragment
  | text (s : String)
  | toolReq (r : ToolCallReq)
deriving Repr, DecidableEq

/-- The text fragments of a streamed reply, in arrival order. -/
def textFragments (sr : List Fragment) : List String :=
  sr.filterMap fun f => match f with | .text s => some s | .toolReq _ => none

/-- The tool-call requests accumulated over a streamed reply. -/
def assembledCalls (sr : List Fragment) : List ToolCallReq :=
  sr.filterMap fun f => match f with | .text _ => none | .toolReq r => some r

/-- The atomic reply a streamed reply denotes: its tool-call requests when any
were accumulated, otherwise its concatenated text (spec section 6). -/
def atomize (sr : List Fragment) : Reply :=
  if assembledCalls sr = [] then .final (String.join (textFragments sr))
  else .toolCalls (assembledCalls sr)

/-- Modelled from the spec: the streaming agent loop (spec section 4.4).
Returns the fragments yielded to the caller plus the outcome.  A pure-text
reply forwards its fragments and ends the stream; a reply that accumulated
tool-call requests dispatches them silently — its text withheld from the
caller, the spec section 9 assumption — and re-enters the model-awaiting
state.  Ceiling and failure policy as in the synchronous loop. -/
def streamAux (dispatch : ToolCallReq → String) :
    Nat → Nat → List (List Fragment) → List Message → List String × RunResult
  | 0, iters, _, msgs => ([], .toolLoopExceeded iters msgs)
  | _ + 1, _, [], msgs => ([], .backendExhausted msgs)
  | rem + 1, iters, sr :: sscript, msgs =>
    match assembledCalls sr with
    | [] =>
      (textFragments sr,
        .ok (String.join (textFragments sr))
          (msgs ++ [assistantFinal (String.join (textFragments sr))]))
    | reqs =>
      streamAux dispatch rem (iters + 1) sscript (msgs ++ cycleBlock dispatch reqs)

/-- Modelled from the spec: `run_streaming(user_text)` (spec section 4.4). -/
def execute_streaming_loop (dispatch : ToolCallReq → String) (maxIters : Nat)
    (sscript : List (List Fragment)) (user_text : String) (msgs : List Message) :
    List String × RunResult :=
  streamAux dispatch maxIters 0 sscript (msgs ++ [userMsg user_text])

/-! ## Context trimming -/

/-- Is the message a `tool-result` record? -/
def isToolResultMsg (m : Message) : Bool :=
  m.role == Role.toolResult

/-- Does the message record a batch of tool-call requests? -/
def isToolCallMsg (m : Message) : Bool :=
  m.role == Role.assistant && !m.tool_calls.isEmpty

/-- Modelled from the spec: grouping of the non-system transcript into
eviction units — a tool-call record together with the tool-results that
follow it forms one unit, evicted atomically; every other message is a unit
of its own (spec section 3, "Context Budget"). -/
def groupUnits : List Message → List (List Message)
  | [] => []
  | m :: rest =>
    if isToolCallMsg m then
      (m :: rest.takeWhile isToolResultMsg)
        :: groupUnits (rest.dropWhile isToolResultMsg)
    else [m] :: groupUnits rest
termination_by l => l.length
decreasing_by
  · exact Nat.lt_succ_of_le (List.dropWhile_suffix isToolResultMsg).length_le
  · exact Nat.lt_succ_self _

/-- Total estimated token cost of a list of eviction units under the
per-message estimator `cost`. -/
def unitsCost (cost : Message → Nat) (us : List (List Message)) : Nat :=
  (us.map fun u => (u.map cost).sum).sum

/-- Modelled from the spec: evict the oldest units until the estimate fits
the budget (`sysCost` is the cost of the exempt system message, if any)
(spec sections 3 and 4.2). -/
def trimUnits (cost : Message → Nat) (budget sysCost : Nat) :
    List (List Message) → List (List Message)
  | [] => []
  | u :: rest =>
    if sysCost + unitsCost cost (u :: rest) ≤ budget then u :: rest
    else trimUnits cost budget sysCost rest

/-- Modelled from the spec: `snapshot()` (spec section 4.2) — the transcript
to transmit, trimmed oldest-first at unit granularity, the system message
(the first entry, when its role is `system`) always kept. -/
def snapshotTrimmed (cost : Message → Nat) (budget : Nat)
    (msgs : List Message) : List Message :=
  match msgs with
  | [] => []
  | m :: rest =>
    if m.role = Role.system then
      m :: (trimUnits cost budget (cost m) (groupUnits rest)).flatten
    else (trimUnits cost budget 0 (groupUnits (m :: rest))).flatten

/-! ## `main` (`cli.py` lines 208-271), up to component construction -/

/-- The `--provider`, `--model` and `--api-key` arguments as `argparse`
delivers them: `none` when the flag is absent. -/
structure Args where
  provider : Option PyStr
  model : Option PyStr
  api_key : Option PyStr
deriving Repr, DecidableEq

/-- The override block of `main` (`cli.py` lines 224-229): each config entry
is replaced only when the argument is truthy (`if args.provider:` etc.), so
an empty-string argument leaves the loaded value in place. -/
def applyOverrides (args : Args) (c : Config) : Config :=
  { provider := if truthy args.provider then args.provider else c.provider
    model := if truthy args.model then args.model else c.model
    api_key := if truthy args.api_key then args.api_key else c.api_key }

/-- The override block as claim C10 words it: every provided command-line
value replaces the loaded one, with no truthiness filter.  Stated for
comparison with `applyOverrides`, which is what the code does. -/
def overridesPerClaim (args : Args) (c : Config) : Config :=
  { provider := match args.provider with | some v => some v | none => c.provider
    model := match args.model with | some v => some v | none => c.model
    api_key := match args.api_key with | some v => some v | none => c.api_key }

/-- How `main` continues after `load_config`: `exit1` is
`sys.exit(1)` after the "Configuration incomplete" message (`cli.py`
lines 232-239), reached before any component is constructed; `proceed`
carries the config from which the LLM client, conversation manager and tool
registry are then built. -/
inductive MainOutcome
  | exit1
  | proceed (c : Config)
deriving Repr, DecidableEq

/-- `main` from the override block to the validation gate
(`cli.py` lines 224-239). -/
def mainAfterLoad (args : Args) (c : Config) : MainOutcome :=
  let c' := applyOverrides args c
  if validate_config c' then .proceed c' else .exit1

/-- `mainAfterLoad` as claim C10 words the override step. -/
def mainPerClaim (args : Args) (c : Config) : MainOutcome :=
  let c' := overridesPerClaim args c
  if validate_config c' then .proceed c' else .exit1

/-! ## Shared lemmas about the string primitives -/

theorem lstrip_length_le (s : PyStr) : (lstrip s).length ≤ s.length := by
  induction s with
  | nil => simp [lstrip]
  | cons c cs ih =>
    cases h : pyIsSpace c
    · simp [lstrip, h]
    · simp only [lstrip, h, if_pos]
      exact le_trans ih (Nat.le_succ _)

theorem lstrip_eq_of_length (s : PyStr) (h : (lstrip s).length = s.length) :
    lstrip s = s := by
  induction s with
  | nil => simp [lstrip]
  | cons c cs ih =>
    cases hc : pyIsSpace c
    · simp [lstrip, hc]
    · exfalso
      rw [show lstrip (c :: cs) = lstrip cs by simp [lstrip, hc]] at h
      have := lstrip_length_le cs
      simp [List.length_cons] at h
      omega

theorem lstrip_head_not_space (s : PyStr) (h : lstrip s = s) (hne : s ≠ []) :
    ∃ c cs, s = c :: cs ∧ pyIsSpace c = false := by
  cases s with
  | nil => exact absurd rfl hne
  | cons c cs =>
    refine ⟨c, cs, rfl, ?_⟩
    cases hc : pyIsSpace c
    · rfl
    · exfalso
      rw [show lstrip (c :: cs) = lstrip cs by simp [lstrip, hc]] at h
      have h2 := congrArg List.length h
      have := lstrip_length_le cs
      simp [List.length_cons] at h2
      omega

theorem lstrip_append_fix (s t : PyStr) (h : lstrip s = s) (hne : s ≠ []) :
    lstrip (s ++ t) = s ++ t := by
  obtain ⟨c, cs, rfl, hc⟩ := lstrip_head_not_space s h hne
  simp [lstrip, hc]

theorem rstrip_reverse_fix (s : PyStr) (h : rstrip s = s) :
    lstrip s.reverse = s.reverse := by
  have h2 := congrArg List.reverse h
  rw [rstrip, List.reverse_reverse] at h2
  exact h2

theorem strip_fix_parts (s : PyStr) (h : pyStrip s = s) :
    lstrip s = s ∧ rstrip s = s := by
  have hlen1 : (pyStrip s).length ≤ (lstrip s).length := by
    rw [pyStrip, rstrip]
    calc (lstrip (lstrip s).reverse).reverse.length
        = (lstrip (lstrip s).reverse).length := List.length_reverse _
      _ ≤ (lstrip s).reverse.length := lstrip_length_le _
      _ = (lstrip s).length := List.length_reverse _
  have hlen2 : (lstrip s).length ≤ s.length := lstrip_length_le s
  have hlen3 : (pyStrip s).length = s.length := by rw [h]
  have hfix : lstrip s = s := lstrip_eq_of_length s (by omega)
  refine ⟨hfix, ?_⟩
  have := h
  rw [pyStrip, hfix] at this
  exact this

theorem strip_key_line (P p : PyStr) (hP : lstrip P = P) (hPne : P ≠ [])
    (hpr : rstrip p = p) (hpne : p ≠ []) :
    pyStrip ((P ++ p) ++ ['\n']) = P ++ p := by
  have h1 : lstrip ((P ++ p) ++ ['\n']) = (P ++ p) ++ ['\n'] := by
    rw [List.append_assoc]
    exact lstrip_append_fix P (p ++ ['\n']) hP hPne
  rw [pyStrip, h1, rstrip, List.reverse_append]
  have h2 : lstrip (['\n'].reverse ++ (P ++ p).reverse)
      = lstrip ((P ++ p).reverse) := by
    simp [lstrip, pyIsSpace]
  rw [h2, List.reverse_append]
  have h4 : lstrip p.reverse = p.reverse := rstrip_reverse_fix p hpr
  have h5 : p.reverse ≠ [] := by simpa using hpne
  rw [lstrip_append_fix p.reverse P.reverse h4 h5]
  rw [← List.reverse_append, List.reverse_reverse]

theorem splitOnceEq_key (K v : PyStr) (h : '=' ∉ K) :
    splitOnceEq (K ++ '=' :: v) = some (K, v) := by
  induction K with
  | nil => simp [splitOnceEq]
  | cons c cs ih =>
    have hc : c ≠ '=' := fun hc => h (by simp [hc])
    have hcs : '=' ∉ cs := fun hm => h (List.mem_cons_of_mem _ hm)
    simp [splitOnceEq, hc, ih hcs]

theorem univNewlines_cons (c : Char) (cs : PyStr) (hc : c ≠ '\r') :
    univNewlines (c :: cs) = c :: univNewlines cs := by
  rw [univNewlines.eq_def]
  simp [hc]

theorem univNewlines_no_cr (l : PyStr) (h : '\r' ∉ l) : univNewlines l = l := by
  induction l with
  | nil => rfl
  | cons c cs ih =>
    have hc : c ≠ '\r' := fun hc => h (by simp [hc])
    have hcs : '\r' ∉ cs := fun hm => h (List.mem_cons_of_mem _ hm)
    rw [univNewlines_cons c cs hc, ih hcs]

theorem splitLinesAux_line (seg : PyStr) (rest : PyStr) (h : '\n' ∉ seg) :
    ∀ acc, splitLinesAux acc (seg ++ '\n' :: rest)
      = ((acc.reverse ++ seg) ++ ['\n']) :: splitLinesAux [] rest := by
  induction seg with
  | nil => intro acc; simp [splitLinesAux]
  | cons c cs ih =>
    intro acc
    have hc : c ≠ '\n' := fun hc => h (by simp [hc])
    have hcs : '\n' ∉ cs := fun hm => h (List.mem_cons_of_mem _ hm)
    rw [List.cons_append, show splitLinesAux acc (c :: (cs ++ '\n' :: rest))
      = splitLinesAux (c :: acc) (cs ++ '\n' :: rest) by simp [splitLinesAux, hc]]
    rw [ih hcs (c :: acc)]
    simp

theorem setEnv_same (env : Env) (k v : PyStr) : setEnv env k v k = some v := by
  simp [setEnv]

theorem setEnv_other (env : Env) (k v k' : PyStr) (h : k' ≠ k) :
    setEnv env k v k' = env k' := by
  simp [setEnv, h]

theorem notMem_append {x : Char} {a b : PyStr} (ha : x ∉ a) (hb : x ∉ b) :
    x ∉ a ++ b :=
  fun hm => (List.mem_append.mp hm).elim ha hb

theorem notMem_cons {x c : Char} {b : PyStr} (hc : x ≠ c) (hb : x ∉ b) :
    x ∉ c :: b :=
  fun hm => (List.mem_cons.mp hm).elim hc hb

theorem processLine_entry (K' p : PyStr) (env : Env)
    (hKne : K' ≠ []) (hKl : lstrip K' = K') (hKeq : '=' ∉ K')
    (hKhead : K'.head? ≠ some '#')
    (hpr : rstrip p = p) (hpne : p ≠ [])
    (hKnul : '\x00' ∉ K') (hpnul : '\x00' ∉ p) :
    processLine (((K' ++ ['=']) ++ p) ++ ['\n']) env = some (setEnv env K' p) := by
  have hP : lstrip (K' ++ ['=']) = K' ++ ['='] := lstrip_append_fix K' ['='] hKl hKne
  have hPne : K' ++ ['='] ≠ [] := by simp
  have hstrip : pyStrip (((K' ++ ['=']) ++ p) ++ ['\n']) = (K' ++ ['=']) ++ p :=
    strip_key_line (K' ++ ['=']) p hP hPne hpr hpne
  have hsplit : splitOnceEq ((K' ++ ['=']) ++ p) = some (K', p) := by
    rw [List.append_assoc, List.singleton_append]
    exact splitOnceEq_key K' p hKeq
  have hne2 : (K' ++ ['=']) ++ p ≠ [] := by simp
  have hhead : (((K' ++ ['=']) ++ p) ++ ['\n']).head? = K'.head? := by
    cases K' with
    | nil => exact absurd rfl hKne
    | cons a t => simp
  have hhead2 : (((K' ++ ['=']) ++ p) ++ ['\n']).head? ≠ some '#' := by
    rw [hhead]; exact hKhead
  have hcond : pyStrip (((K' ++ ['=']) ++ p) ++ ['\n']) ≠ []
      ∧ (((K' ++ ['=']) ++ p) ++ ['\n']).head? ≠ some '#' := by
    constructor
    · rw [hstrip]; exact hne2
    · exact hhead2
  simp only [processLine, if_pos hcond, hstrip, hsplit]
  rw [if_pos ⟨hne2, hhead2⟩]
  unfold environSet
  rw [if_neg (fun hor => hor.elim (fun hnk => hKnul hnk) (fun hnp => hpnul hnp)),
    if_neg hKne]

theorem readLines_envFile (p m k : PyStr)
    (hpn : '\n' ∉ p) (hpc : '\r' ∉ p) (hmn : '\n' ∉ m) (hmc : '\r' ∉ m)
    (hkn : '\n' ∉ k) (hkc : '\r' ∉ k) :
    readLines (envFileContent p m k) =
      ["# Turtle CLI Configuration".toList ++ ['\n'],
       (("TURTLE_PROVIDER".toList ++ ['=']) ++ p) ++ ['\n'],
       (("TURTLE_MODEL".toList ++ ['=']) ++ m) ++ ['\n'],
       (("TURTLE_API_KEY".toList ++ ['=']) ++ k) ++ ['\n']] := by
  have e : envFileContent p m k
      = "# Turtle CLI Configuration".toList
        ++ '\n' :: ((("TURTLE_PROVIDER".toList ++ ['=']) ++ p)
        ++ '\n' :: ((("TURTLE_MODEL".toList ++ ['=']) ++ m)
        ++ '\n' :: ((("TURTLE_API_KEY".toList ++ ['=']) ++ k)
        ++ '\n' :: ([] : PyStr)))) := by
    rw [envFileContent]
    rw [show "# Turtle CLI Configuration\nTURTLE_PROVIDER=".toList
        = "# Turtle CLI Configuration".toList
          ++ '\n' :: ("TURTLE_PROVIDER".toList ++ ['=']) from by decide]
    rw [show "\nTURTLE_MODEL=".toList
        = '\n' :: ("TURTLE_MODEL".toList ++ ['=']) from by decide]
    rw [show "\nTURTLE_API_KEY=".toList
        = '\n' :: ("TURTLE_API_KEY".toList ++ ['=']) from by decide]
    rw [show "\n".toList = ['\n'] from by decide]
    simp
  have hcr : '\r' ∉ envFileContent p m k := by
    rw [e]
    exact notMem_append (by decide) (notMem_cons (by decide)
      (notMem_append (notMem_append (by decide) hpc) (notMem_cons (by decide)
        (notMem_append (notMem_append (by decide) hmc) (notMem_cons (by decide)
          (notMem_append (notMem_append (by decide) hkc)
            (notMem_cons (by decide) (by simp))))))))
  rw [readLines, univNewlines_no_cr _ hcr, e]
  rw [splitLinesAux_line _ _ (by decide) []]
  rw [splitLinesAux_line _ _ (notMem_append (by decide) hpn) []]
  rw [splitLinesAux_line _ _ (notMem_append (by decide) hmn) []]
  rw [splitLinesAux_line _ _ (notMem_append (by decide) hkn) []]
  simp [splitLinesAux]

/-- The empty process environment. -/
def emptyEnv : Env := fun _ => none

/-- C1 (amended): for provider, model and API key that are non-empty, contain
no newline, no carriage return and no NUL byte, equal their own `strip()` and
do not begin with `'#'`, writing the configuration with
`SetupWizard.save_configuration` and reading it back with `load_config`
yields a config dict whose `provider`, `model` and `api_key` entries are
exactly the three saved values. -/
theorem claim_C1 (p m k : PyStr) (env : Env)
    (hp1 : p ≠ []) (hp2 : '\n' ∉ p) (hp3 : '\r' ∉ p) (hp6 : '\x00' ∉ p)
    (hp4 : pyStrip p = p) (hp5 : p.head? ≠ some '#')
    (hm1 : m ≠ []) (hm2 : '\n' ∉ m) (hm3 : '\r' ∉ m) (hm6 : '\x00' ∉ m)
    (hm4 : pyStrip m = m) (hm5 : m.head? ≠ some '#')
    (hk1 : k ≠ []) (hk2 : '\n' ∉ k) (hk3 : '\r' ∉ k) (hk6 : '\x00' ∉ k)
    (hk4 : pyStrip k = k) (hk5 : k.head? ≠ some '#') :
    ∃ env' : Env, load_config (some (envFileContent p m k)) env
      = some (env', { provider := some p, model := some m, api_key := some k }) := by
  have hpr := (strip_fix_parts p hp4).2
  have hmr := (strip_fix_parts m hm4).2
  have hkr := (strip_fix_parts k hk4).2
  have h0 : processLine ("# Turtle CLI Configuration".toList ++ ['\n']) env
      = some env := by
    have hh : ("# Turtle CLI Configuration".toList ++ ['\n']).head? = some '#' := by
      decide
    simp only [processLine]
    rw [if_neg (fun hcon => hcon.2 hh)]
  have h1 := processLine_entry "TURTLE_PROVIDER".toList p env
    (by decide) (by decide) (by decide) (by decide) hpr hp1 (by decide) hp6
  have h2 := processLine_entry "TURTLE_MODEL".toList m
    (setEnv env "TURTLE_PROVIDER".toList p)
    (by decide) (by decide) (by decide) (by decide) hmr hm1 (by decide) hm6
  have h3 := processLine_entry "TURTLE_API_KEY".toList k
    (setEnv (setEnv env "TURTLE_PROVIDER".toList p) "TURTLE_MODEL".toList m)
    (by decide) (by decide) (by decide) (by decide) hkr hk1 (by decide) hk6
  refine ⟨setEnv (setEnv (setEnv env "TURTLE_PROVIDER".toList p)
    "TURTLE_MODEL".toList m) "TURTLE_API_KEY".toList k, ?_⟩
  simp only [load_config]
  rw [readLines_envFile p m k hp2 hp3 hm2 hm3 hk2 hk3]
  simp only [applyEnvLines, h0, h1, h2, h3]
  have e1 : setEnv (setEnv (setEnv env "TURTLE_PROVIDER".toList p)
      "TURTLE_MODEL".toList m) "TURTLE_API_KEY".toList k
      "TURTLE_PROVIDER".toList = some p := by
    rw [setEnv_other _ _ _ _ (by decide), setEnv_other _ _ _ _ (by decide),
      setEnv_same]
  have e2 : setEnv (setEnv (setEnv env "TURTLE_PROVIDER".toList p)
      "TURTLE_MODEL".toList m) "TURTLE_API_KEY".toList k
      "TURTLE_MODEL".toList = some m := by
    rw [setEnv_other _ _ _ _ (by decide), setEnv_same]
  have e3 : setEnv (setEnv (setEnv env "TURTLE_PROVIDER".toList p)
      "TURTLE_MODEL".toList m) "TURTLE_API_KEY".toList k
      "TURTLE_API_KEY".toList = some k := setEnv_same _ _ _
  simp only [configFromEnv, e1, e2, e3]

/-- C1 witness: the round trip at provider `openai`, model `gpt-4`, key
`sk-test`. -/
theorem claim_C1_witness :
    ∃ env' : Env, load_config
        (some (envFileContent "openai".toList "gpt-4".toList "sk-test".toList))
        emptyEnv
      = some (env', { provider := some "openai".toList
                      model := some "gpt-4".toList
                      api_key := some "sk-test".toList }) :=
  claim_C1 "openai".toList "gpt-4".toList "sk-test".toList emptyEnv
    (by decide) (by decide) (by decide) (by decide) (by decide) (by decide)
    (by decide) (by decide) (by decide) (by decide) (by decide) (by decide)
    (by decide) (by decide) (by decide) (by decide) (by decide) (by decide)

/-- C1 counterexample: two API keys satisfy every hypothesis of the claim as
stated — non-empty, no `'\n'`, equal to their own `strip()`, not beginning
with `'#'` — yet saving them and loading back does not return the saved
values.  First, `"a\rb"`: Python's text-mode read treats the bare `'\r'` as
a line break, the continuation line `"b\n"` has no `'='`, and `load_config`
raises `ValueError`.  Second, `"a\x00b"` (which also has no `'\r'`): the
line is read back intact, but `os.environ['TURTLE_API_KEY'] = 'a\x00b'`
raises `ValueError: embedded null byte`.  Both force the amendment's
exclusions. -/
theorem claim_C1_counterexample :
    ((['a', '\r', 'b'] : PyStr) ≠ [] ∧ '\n' ∉ (['a', '\r', 'b'] : PyStr)
      ∧ pyStrip ['a', '\r', 'b'] = ['a', '\r', 'b']
      ∧ (['a', '\r', 'b'] : PyStr).head? ≠ some '#')
    ∧ load_config
        (some (envFileContent "openai".toList "gpt-4".toList ['a', '\r', 'b']))
        emptyEnv = none
    ∧ ((['a', '\x00', 'b'] : PyStr) ≠ [] ∧ '\n' ∉ (['a', '\x00', 'b'] : PyStr)
      ∧ '\r' ∉ (['a', '\x00', 'b'] : PyStr)
      ∧ pyStrip ['a', '\x00', 'b'] = ['a', '\x00', 'b']
      ∧ (['a', '\x00', 'b'] : PyStr).head? ≠ some '#')
    ∧ load_config
        (some (envFileContent "openai".toList "gpt-4".toList ['a', '\x00', 'b']))
        emptyEnv = none :=
  ⟨by decide, rfl, by decide, rfl⟩

theorem splitOnceEq_none_iff (s : PyStr) : splitOnceEq s = none ↔ '=' ∉ s := by
  induction s with
  | nil => simp [splitOnceEq]
  | cons c cs ih =>
    by_cases hc : c = '='
    · subst hc
      simp [splitOnceEq]
    · rw [List.mem_cons]
      cases h : splitOnceEq cs with
      | none =>
        simp only [splitOnceEq, if_neg hc, h]
        simp [ih.mp h]
        exact fun he => hc he.symm
      | some kv =>
        obtain ⟨k, v⟩ := kv
        simp only [splitOnceEq, if_neg hc, h]
        have hm : '=' ∈ cs := by
          by_contra hn
          rw [ih.mpr hn] at h
          exact Option.noConfusion h
        simp [hm]

theorem mem_lstrip_iff (x : Char) (hx : pyIsSpace x = false) (l : PyStr) :
    x ∈ lstrip l ↔ x ∈ l := by
  induction l with
  | nil => simp [lstrip]
  | cons c cs ih =>
    cases hc : pyIsSpace c
    · simp [lstrip, hc]
    · have hne : x ≠ c := fun he => by
        rw [he, hc] at hx
        exact Bool.noConfusion hx
      simp [lstrip, hc, ih, List.mem_cons, hne]

theorem mem_pyStrip_iff (x : Char) (hx : pyIsSpace x = false) (l : PyStr) :
    x ∈ pyStrip l ↔ x ∈ l := by
  rw [pyStrip, rstrip]
  rw [List.mem_reverse, mem_lstrip_iff x hx, List.mem_reverse]
  exact mem_lstrip_iff x hx l

/-- The condition under which a `.env` line makes `load_config` raise: the
parsing loop reaches it (non-blank after stripping, not starting with `'#'`)
and either it contains no `'='` — the tuple unpacking raises — or its first
`'='` splits it into an empty key, or a key or value containing a NUL byte,
making the `os.environ` assignment raise. -/
def badLine (l : PyStr) : Prop :=
  pyStrip l ≠ [] ∧ l.head? ≠ some '#'
  ∧ ('=' ∉ l ∨ ∃ k v, splitOnceEq (pyStrip l) = some (k, v)
      ∧ (k = [] ∨ '\x00' ∈ k ∨ '\x00' ∈ v))

theorem environSet_none_iff (env : Env) (k v : PyStr) :
    environSet env k v = none ↔ (k = [] ∨ '\x00' ∈ k ∨ '\x00' ∈ v) := by
  unfold environSet
  by_cases h1 : '\x00' ∈ k ∨ '\x00' ∈ v
  · rw [if_pos h1]
    exact ⟨fun _ => Or.inr h1, fun _ => rfl⟩
  · rw [if_neg h1]
    by_cases h2 : k = []
    · rw [if_pos h2]
      exact ⟨fun _ => Or.inl h2, fun _ => rfl⟩
    · rw [if_neg h2]
      constructor
      · exact fun hc => Option.noConfusion hc
      · rintro (hk | hn)
        · exact absurd hk h2
        · exact absurd hn h1

theorem processLine_none_iff (l : PyStr) (env : Env) :
    processLine l env = none ↔ badLine l := by
  unfold processLine badLine
  by_cases hcond : pyStrip l ≠ [] ∧ l.head? ≠ some '#'
  · rw [if_pos hcond]
    cases h : splitOnceEq (pyStrip l) with
    | none =>
      have hne : '=' ∉ l := by
        rw [← mem_pyStrip_iff '=' (by decide) l]
        exact (splitOnceEq_none_iff _).mp h
      exact ⟨fun _ => ⟨hcond.1, hcond.2, Or.inl hne⟩, fun _ => rfl⟩
    | some kv =>
      obtain ⟨k, v⟩ := kv
      have hmem : '=' ∈ l := by
        rw [← mem_pyStrip_iff '=' (by decide) l]
        by_contra hn
        rw [(splitOnceEq_none_iff _).mpr hn] at h
        exact Option.noConfusion h
      change environSet env k v = none ↔ _
      constructor
      · intro hnone
        exact ⟨hcond.1, hcond.2,
          Or.inr ⟨k, v, rfl, (environSet_none_iff env k v).mp hnone⟩⟩
      · rintro ⟨_, _, (hne | ⟨k', v', hkv, hb⟩)⟩
        · exact absurd hmem hne
        · injection hkv with he
          rw [Prod.mk.injEq] at he
          obtain ⟨rfl, rfl⟩ := he
          exact (environSet_none_iff env k v).mpr hb
  · rw [if_neg hcond]
    constructor
    · exact fun h => Option.noConfusion h
    · exact fun hb => absurd ⟨hb.1, hb.2.1⟩ hcond

theorem applyEnvLines_none_iff (ls : List PyStr) :
    ∀ env : Env, applyEnvLines ls env = none ↔ ∃ l ∈ ls, badLine l := by
  induction ls with
  | nil => intro env; simp [applyEnvLines]
  | cons l ls ih =>
    intro env
    cases h : processLine l env with
    | none =>
      have hb : badLine l := (processLine_none_iff l env).mp h
      simp only [applyEnvLines, h]
      exact ⟨fun _ => ⟨l, List.mem_cons_self l ls, hb⟩, fun _ => trivial⟩
    | some env' =>
      have hnb : ¬badLine l := fun hb => by
        rw [(processLine_none_iff l env).mpr hb] at h
        exact Option.noConfusion h
      simp only [applyEnvLines, h]
      rw [ih env']
      constructor
      · rintro ⟨l', hl', hb'⟩
        exact ⟨l', List.mem_cons_of_mem _ hl', hb'⟩
      · rintro ⟨l', hl', hb'⟩
        rcases List.mem_cons.mp hl' with rfl | hl'
        · exact absurd hb' hnb
        · exact ⟨l', hl', hb'⟩

/-- C8 (amended): `load_config` raises an uncaught error exactly when `.env`
exists and one of its lines is non-blank after stripping, does not begin
with `'#'`, and either contains no `'='` (the tuple unpacking raises) or
splits at its first `'='` into an empty key or a key or value containing a
NUL byte (the `os.environ` assignment raises); in every other case it
returns a dict whose keys are exactly `provider`, `model` and `api_key`,
read from the `TURTLE_*` variables of the environment that the `.env`
entries have overwritten. -/
theorem claim_C8 (envFile : Option PyStr) (env : Env) :
    (load_config envFile env = none
      ↔ ∃ content, envFile = some content ∧ ∃ l ∈ readLines content, badLine l)
    ∧ ∀ env' cfg, load_config envFile env = some (env', cfg) →
        cfg.provider = env' "TURTLE_PROVIDER".toList
        ∧ cfg.model = env' "TURTLE_MODEL".toList
        ∧ cfg.api_key = env' "TURTLE_API_KEY".toList := by
  cases envFile with
  | none =>
    constructor
    · simp [load_config]
    · intro env' cfg h
      simp only [load_config, Option.some.injEq, Prod.mk.injEq] at h
      rw [← h.2, h.1]
      exact ⟨rfl, rfl, rfl⟩
  | some content =>
    cases h : applyEnvLines (readLines content) env with
    | none =>
      constructor
      · simp only [load_config, h, true_iff]
        exact ⟨content, rfl, (applyEnvLines_none_iff _ env).mp h⟩
      · intro env' cfg hc
        simp only [load_config, h] at hc
        exact Option.noConfusion hc
    | some env0 =>
      constructor
      · simp only [load_config, h]
        constructor
        · exact fun hcc => Option.noConfusion hcc
        · rintro ⟨content', hc', hbad⟩
          exfalso
          injection hc' with he
          subst he
          rw [(applyEnvLines_none_iff _ env).mpr hbad] at h
          exact Option.noConfusion h
      · intro env' cfg hc
        simp only [load_config, h, Option.some.injEq, Prod.mk.injEq] at hc
        rw [← hc.2, hc.1]
        exact ⟨rfl, rfl, rfl⟩

/-- C8 counterexample: the claim as stated says a line containing `'='` never
makes `load_config` raise, but on the file `"A=b\x00c\n"` — whose single
line is non-blank, does not start with `'#'`, and does contain `'='` — the
`os.environ` assignment raises `ValueError: embedded null byte`, so
`load_config` raises although no line meets the claim's raise condition. -/
theorem claim_C8_counterexample :
    load_config (some "A=b\x00c\n".toList) emptyEnv = none
    ∧ ∀ l ∈ readLines "A=b\x00c\n".toList,
        ¬(pyStrip l ≠ [] ∧ l.head? ≠ some '#' ∧ '=' ∉ l) :=
  ⟨rfl, by decide⟩

/-- C8 witness: the file `" x\n"` (one line, non-blank after stripping, not
starting with `'#'`, no `'='`) makes `load_config` raise. -/
theorem claim_C8_witness :
    load_config (some " x\n".toList) emptyEnv = none :=
  (claim_C8 (some " x\n".toList) emptyEnv).1.mpr
    ⟨" x\n".toList, rfl, " x\n".toList, by decide,
      by decide, by decide, Or.inl (by decide)⟩

/-- A loaded configuration used to exercise the `main` override block. -/
def cfg10 : Config :=
  { provider := some "openai".toList
    model := some "gpt-4".toList
    api_key := some "k".toList }

/-- Command-line arguments passing `--provider ""`. -/
def args10 : Args :=
  { provider := some [], model := none, api_key := none }

/-- Command-line arguments passing `--provider anthropic`. -/
def args10b : Args :=
  { provider := some "anthropic".toList, model := none, api_key := none }

/-- C10 counterexample: with `--provider ""` and a complete loaded config,
the claim's reading (every provided command-line value replaces the loaded
one) predicts the provider becomes the empty string and `main` exits with
status 1; the code's truthiness test (`if args.provider:`) keeps the loaded
provider and proceeds to construct the components. -/
theorem claim_C10_counterexample :
    mainPerClaim args10 cfg10 = MainOutcome.exit1
    ∧ mainAfterLoad args10 cfg10 = MainOutcome.proceed cfg10 := by
  decide

/-- C10 (amended): `validate_config` returns `True` iff `provider`, `model`
and `api_key` each map to a non-empty value; in `main`, non-empty
command-line `--provider`/`--model`/`--api-key` values replace the loaded
values before validation (empty or absent ones leave them unchanged), and
when validation fails `main` exits with status 1 before constructing the LLM
client, conversation manager or tool registry. -/
theorem claim_C10 (c : Config) (args : Args) :
    (validate_config c = true
      ↔ (∃ v, c.provider = some v ∧ v ≠ [])
        ∧ (∃ v, c.model = some v ∧ v ≠ [])
        ∧ (∃ v, c.api_key = some v ∧ v ≠ []))
    ∧ (∀ v, args.provider = some v → v ≠ [] →
        (applyOverrides args c).provider = some v)
    ∧ (∀ v, args.model = some v → v ≠ [] →
        (applyOverrides args c).model = some v)
    ∧ (∀ v, args.api_key = some v → v ≠ [] →
        (applyOverrides args c).api_key = some v)
    ∧ ((args.provider = none ∨ args.provider = some []) →
        (applyOverrides args c).provider = c.provider)
    ∧ (validate_config (applyOverrides args c) = false →
        mainAfterLoad args c = MainOutcome.exit1)
    ∧ (validate_config (applyOverrides args c) = true →
        mainAfterLoad args c = MainOutcome.proceed (applyOverrides args c)) := by
  refine ⟨?_, ?_, ?_, ?_, ?_, ?_, ?_⟩
  · obtain ⟨p, m, k⟩ := c
    cases p <;> cases m <;> cases k <;> simp [validate_config, truthy, and_assoc]
  · intro v hv hvne
    simp [applyOverrides, hv, truthy, hvne]
  · intro v hv hvne
    simp [applyOverrides, hv, truthy, hvne]
  · intro v hv hvne
    simp [applyOverrides, hv, truthy, hvne]
  · rintro (hv | hv) <;> simp [applyOverrides, hv, truthy]
  · intro h
    simp [mainAfterLoad, h]
  · intro h
    simp [mainAfterLoad, h]

/-- C10 witness: `--provider anthropic` over a complete loaded config passes
validation and `main` proceeds with the overridden config. -/
theorem claim_C10_witness :
    mainAfterLoad args10b cfg10
      = MainOutcome.proceed (applyOverrides args10b cfg10) :=
  (claim_C10 cfg10 args10b).2.2.2.2.2.2 (by decide)

/-- C9: `is_first_run` is true iff neither `.env` nor `.turtle/config.json`
exists; when it is false, `run_setup` returns `False` with no input consumed
and no file written; and a successful `save_configuration` leaves both files
existing, so a completed setup is never again treated as a first run. -/
theorem claim_C9 (fs : FS) (envOk configOk : Bool) (inputs : List PyStr)
    (p m k : PyStr) :
    (is_first_run fs = true ↔ fs.envFile = none ∧ fs.configFile = none)
    ∧ (is_first_run fs = false →
        run_setup fs envOk configOk inputs = (false, fs, inputs))
    ∧ (save_configuration fs p m k).envFile.isSome = true
    ∧ (save_configuration fs p m k).configFile.isSome = true
    ∧ is_first_run (save_configuration fs p m k) = false := by
  obtain ⟨e, c⟩ := fs
  refine ⟨?_, ?_, ?_, ?_, ?_⟩
  · cases e <;> cases c <;> simp [is_first_run]
  · intro h
    simp [run_setup, h]
  · simp [save_configuration]
  · simp [save_configuration]
  · simp [is_first_run, save_configuration]

/-- C9 witness: with `.env` present setup refuses to run and touches
nothing; after saving a configuration the first-run test is false. -/
theorem claim_C9_witness :
    run_setup { envFile := some [], configFile := none } true true ["1".toList]
      = (false, { envFile := some [], configFile := none }, ["1".toList])
    ∧ is_first_run (save_configuration { envFile := none, configFile := none }
        "openai".toList "gpt-4".toList "k".toList) = false := by
  have h1 := claim_C9 { envFile := some [], configFile := none } true true
    ["1".toList] "openai".toList "gpt-4".toList "k".toList
  have h2 := claim_C9 { envFile := none, configFile := none } true true []
    "openai".toList "gpt-4".toList "k".toList
  exact ⟨h1.2.1 (by decide), h2.2.2.2.2⟩

/-! ## Wizard prompt-loop lemmas -/

/-- The acceptance test of one `get_model_choice` iteration: the input parses
as an `int` in `1..len`. -/
def validIndex (len : Nat) (i : PyStr) : Option Int :=
  match pyInt i with
  | some n => if 1 ≤ n ∧ n ≤ (len : Int) then some n else none
  | none => none

theorem get_provider_choice_skip (bad rest : List PyStr)
    (h : ∀ b ∈ bad, providerOfChoice (pyStrip b) = none) :
    get_provider_choice (bad ++ rest) = get_provider_choice rest := by
  induction bad with
  | nil => rfl
  | cons b bs ih =>
    have hb := h b (List.mem_cons_self b bs)
    have hbs : ∀ b' ∈ bs, providerOfChoice (pyStrip b') = none :=
      fun b' hb' => h b' (List.mem_cons_of_mem _ hb')
    rw [List.cons_append]
    simp only [get_provider_choice, hb]
    exact ih hbs

theorem get_provider_choice_hit (g : PyStr) (rest : List PyStr) (p : PyStr)
    (h : providerOfChoice (pyStrip g) = some p) :
    get_provider_choice (g :: rest) = some (p, rest) := by
  simp [get_provider_choice, h]

theorem modelChoiceLoop_skip (ms : List PyStr) (bad rest : List PyStr)
    (h : ∀ b ∈ bad, validIndex ms.length b = none) :
    modelChoiceLoop ms (bad ++ rest) = modelChoiceLoop ms rest := by
  induction bad with
  | nil => rfl
  | cons b bs ih =>
    have hb := h b (List.mem_cons_self b bs)
    have hbs : ∀ b' ∈ bs, validIndex ms.length b' = none :=
      fun b' hb' => h b' (List.mem_cons_of_mem _ hb')
    rw [List.cons_append]
    unfold validIndex at hb
    cases hpi : pyInt b with
    | none => simp only [modelChoiceLoop, hpi]; exact ih hbs
    | some n =>
      rw [hpi] at hb
      by_cases hrange : 1 ≤ n ∧ n ≤ (ms.length : Int)
      · exfalso
        simp [hrange] at hb
      · simp only [modelChoiceLoop, hpi, if_neg hrange]
        exact ih hbs

theorem modelChoiceLoop_hit (ms : List PyStr) (g : PyStr) (rest : List PyStr)
    (n : Int) (hg : pyInt g = some n) (h1 : 1 ≤ n) (h2 : n ≤ (ms.length : Int)) :
    modelChoiceLoop ms (g :: rest) = some (ms.getD (n - 1).toNat [], rest) := by
  simp [modelChoiceLoop, hg, h1, h2]

theorem get_api_key_skip (bad rest : List PyStr)
    (h : ∀ b ∈ bad, pyStrip b = []) :
    get_api_key (bad ++ rest) = get_api_key rest := by
  induction bad with
  | nil => rfl
  | cons b bs ih =>
    have hb := h b (List.mem_cons_self b bs)
    have hbs : ∀ b' ∈ bs, pyStrip b' = [] :=
      fun b' hb' => h b' (List.mem_cons_of_mem _ hb')
    rw [List.cons_append]
    simp only [get_api_key, hb]
    simp
    exact ih hbs

theorem get_api_key_hit (g : PyStr) (rest : List PyStr) (h : pyStrip g ≠ []) :
    get_api_key (g :: rest) = some (pyStrip g, rest) := by
  simp [get_api_key, h]

theorem providerOfChoice_ne_nil (c p : PyStr) (h : providerOfChoice c = some p) :
    p ≠ [] := by
  unfold providerOfChoice at h
  split_ifs at h <;> first
    | (injection h with he; subst he; decide)
    | exact Option.noConfusion h

theorem provider_models_mem_ne_nil (p x : PyStr) (h : x ∈ provider_models p) :
    x ≠ [] := by
  unfold provider_models at h
  split_ifs at h <;>
    simp only [List.mem_cons, List.not_mem_nil, or_false] at h
  · rcases h with rfl | rfl | rfl <;> decide
  · rcases h with rfl | rfl | rfl <;> decide
  · rcases h with rfl | rfl <;> decide
  · subst h
    intro hn
    have hlen := congrArg List.length hn
    rw [List.length_append] at hlen
    have h8 : ("-default".toList : PyStr).length = 8 := by decide
    rw [h8, List.length_nil] at hlen
    omega

theorem isEmpty_false_of_ne_nil {l : PyStr} (h : l ≠ []) : l.isEmpty = false := by
  cases l with
  | nil => exact absurd rfl h
  | cons a t => rfl

/-- C7: both `run_setup` (on a first run) and `force_setup` are the linear
prompt/validate/persist sequence: the provider prompt repeats until an input
strips to one of the choices `1`-`3`; the model prompt then repeats until an
`int` index into that provider's fixed list is entered; the API-key prompt
then repeats until a non-empty input arrives; the files are written only
after all three values are collected and `validate_config` accepts them
(which it does); and the call returns `True` exactly when both persistence
writes complete without error. -/
theorem claim_C7 (fs : FS) (envOk configOk : Bool)
    (badP badM badK rest : List PyStr) (gp gm gk p m k : PyStr) (n : Int)
    (hbp : ∀ b ∈ badP, providerOfChoice (pyStrip b) = none)
    (hgp : providerOfChoice (pyStrip gp) = some p)
    (hbm : ∀ b ∈ badM, validIndex (provider_models p).length b = none)
    (hgm : pyInt gm = some n) (hn1 : 1 ≤ n)
    (hn2 : n ≤ ((provider_models p).length : Int))
    (hm : m = (provider_models p).getD (n - 1).toNat [])
    (hbk : ∀ b ∈ badK, pyStrip b = []) (hgk : pyStrip gk ≠ [])
    (hk : k = pyStrip gk) :
    validate_config_wiz p m k = true
    ∧ force_setup fs envOk configOk
        (badP ++ gp :: (badM ++ gm :: (badK ++ gk :: rest)))
      = ((save_attempt fs p m k envOk configOk).1,
         (save_attempt fs p m k envOk configOk).2, rest)
    ∧ (save_attempt fs p m k envOk configOk).1 = (envOk && configOk)
    ∧ save_attempt fs p m k true true = (true, save_configuration fs p m k)
    ∧ (is_first_run fs = true →
        run_setup fs envOk configOk
          (badP ++ gp :: (badM ++ gm :: (badK ++ gk :: rest)))
        = force_setup fs envOk configOk
            (badP ++ gp :: (badM ++ gm :: (badK ++ gk :: rest))))
    ∧ (∀ inp : List PyStr, (setupSteps fs envOk configOk inp).2.1 ≠ fs →
        ∃ p' r1 m' r2 k' r3, get_provider_choice inp = some (p', r1)
          ∧ get_model_choice p' r1 = some (m', r2)
          ∧ get_api_key r2 = some (k', r3)
          ∧ validate_config_wiz p' m' k' = true) := by
  subst hm hk
  have hidx : (n - 1).toNat < (provider_models p).length := by omega
  have hm_ne : (provider_models p).getD (n - 1).toNat [] ≠ [] :=
    provider_models_mem_ne_nil p _ (by
      rw [List.getD_eq_getElem _ [] hidx]
      exact List.getElem_mem hidx)
  have hp_ne : p ≠ [] := providerOfChoice_ne_nil _ _ hgp
  have hval : validate_config_wiz p ((provider_models p).getD (n - 1).toNat [])
      (pyStrip gk) = true := by
    unfold validate_config_wiz
    rw [isEmpty_false_of_ne_nil hp_ne, isEmpty_false_of_ne_nil hm_ne,
      isEmpty_false_of_ne_nil hgk]
    rfl
  have hprov : get_provider_choice
      (badP ++ gp :: (badM ++ gm :: (badK ++ gk :: rest)))
      = some (p, badM ++ gm :: (badK ++ gk :: rest)) := by
    rw [get_provider_choice_skip badP _ hbp, get_provider_choice_hit gp _ p hgp]
  have hmod : get_model_choice p (badM ++ gm :: (badK ++ gk :: rest))
      = some ((provider_models p).getD (n - 1).toNat [], badK ++ gk :: rest) := by
    unfold get_model_choice
    rw [modelChoiceLoop_skip _ badM _ hbm, modelChoiceLoop_hit _ gm _ n hgm hn1 hn2]
  have hkey : get_api_key (badK ++ gk :: rest) = some (pyStrip gk, rest) := by
    rw [get_api_key_skip badK _ hbk, get_api_key_hit gk rest hgk]
  refine ⟨hval, ?_, ?_, ?_, ?_, ?_⟩
  · simp only [force_setup, setupSteps, hprov, hmod, hkey, hval, if_true]
  · cases envOk <;> cases configOk <;> simp [save_attempt]
  · simp [save_attempt, save_configuration]
  · intro h
    simp [run_setup, force_setup, h]
  · intro inp hne
    rcases h1 : get_provider_choice inp with _ | ⟨p', r1⟩
    · exact absurd (by simp [setupSteps, h1]) hne
    · rcases h2 : get_model_choice p' r1 with _ | ⟨m', r2⟩
      · exact absurd (by simp [setupSteps, h1, h2]) hne
      · rcases h3 : get_api_key r2 with _ | ⟨k', r3⟩
        · exact absurd (by simp [setupSteps, h1, h2, h3]) hne
        · by_cases hv : validate_config_wiz p' m' k' = true
          · exact ⟨p', r1, m', r2, k', r3, rfl, h2, h3, hv⟩
          · exact absurd (by simp [setupSteps, h1, h2, h3, hv]) hne

/-- C7 witness: one invalid entry at each prompt (`x`, `abc`, a blank key),
then `1` (openai), `2` (`gpt-4-turbo`) and `" key "`; with both writes
succeeding, `force_setup` persists and returns `True` with the remaining
input untouched. -/
theorem claim_C7_witness :
    validate_config_wiz "openai".toList "gpt-4-turbo".toList "key".toList = true
    ∧ force_setup { envFile := none, configFile := none } true true
        (["x".toList] ++ "1".toList :: (["abc".toList] ++ "2".toList ::
          (["  ".toList] ++ " key ".toList :: [])))
      = ((save_attempt { envFile := none, configFile := none } "openai".toList
            "gpt-4-turbo".toList "key".toList true true).1,
         (save_attempt { envFile := none, configFile := none } "openai".toList
            "gpt-4-turbo".toList "key".toList true true).2, []) := by
  have h := claim_C7 { envFile := none, configFile := none } true true
    ["x".toList] ["abc".toList] ["  ".toList] []
    "1".toList "2".toList " key ".toList
    "openai".toList "gpt-4-turbo".toList "key".toList 2
    (by decide) (by decide) (by decide) (by decide) (by decide) (by decide)
    (by decide) (by decide) (by decide) (by decide)
  exact ⟨h.1, h.2.1⟩

/-- C2: when a reply carries tool-call requests, the loop appends the
assistant record followed by exactly one tool-result `Message` per request,
in the order the model issued the requests, each result's invocation id equal
to the id of the request it answers. -/
theorem claim_C2 (dispatch : ToolCallReq → String) (rem iters : Nat)
    (reqs : List ToolCallReq) (script : List Reply) (msgs : List Message) :
    loopAux dispatch (rem + 1) iters (Reply.toolCalls reqs :: script) msgs
      = loopAux dispatch rem (iters + 1) script (msgs ++ cycleBlock dispatch reqs)
    ∧ (toolResultsFor dispatch reqs).length = reqs.length
    ∧ (toolResultsFor dispatch reqs).map Message.tool_call_id
        = reqs.map fun r => some r.id := by
  refine ⟨rfl, ?_, ?_⟩
  · simp [toolResultsFor]
  · simp [toolResultsFor, toolResultMsg]

theorem loopAux_exceeded (dispatch : ToolCallReq → String) (rem : Nat)
    (script : List Reply)
    (hall : ∀ r ∈ script, isToolCallReply r = true)
    (hlen : rem ≤ script.length) :
    ∀ (iters : Nat) (msgs : List Message),
      loopAux dispatch rem iters script msgs
        = RunResult.toolLoopExceeded (iters + rem)
            (msgs ++ ((script.take rem).map
              fun r => cycleBlock dispatch (reqsOf r)).flatten) := by
  induction rem generalizing script with
  | zero => intro iters msgs; simp [loopAux]
  | succ rem ih =>
    intro iters msgs
    cases script with
    | nil => simp at hlen
    | cons r rest =>
      have hr := hall r (List.mem_cons_self r rest)
      cases r with
      | final t => simp [isToolCallReply] at hr
      | toolCalls reqs =>
        have hall' : ∀ r' ∈ rest, isToolCallReply r' = true :=
          fun r' h' => hall r' (List.mem_cons_of_mem _ h')
        have hlen' : rem ≤ rest.length := by
          simp [List.length_cons] at hlen
          omega
        simp only [loopAux]
        rw [ih rest hall' hlen' (iters + 1) (msgs ++ cycleBlock dispatch reqs)]
        congr 1
        · omega
        · simp [List.take_succ_cons, reqsOf, List.append_assoc]

/-- C3: against a backend whose every reply carries at least one tool-call
request, `run` fails with `ToolLoopExceeded` after exactly the configured
ceiling number of tool-dispatch cycles, and the transcript at failure is the
starting transcript plus everything appended during those cycles — nothing
is rolled back. -/
theorem claim_C3 (dispatch : ToolCallReq → String) (maxIters : Nat)
    (script : List Reply) (u : String) (msgs : List Message)
    (hall : ∀ r ∈ script, isToolCallReply r = true)
    (hlen : maxIters ≤ script.length) :
    execute_loop dispatch maxIters script u msgs
      = RunResult.toolLoopExceeded maxIters
          ((msgs ++ [userMsg u]) ++ ((script.take maxIters).map
            fun r => cycleBlock dispatch (reqsOf r)).flatten) := by
  unfold execute_loop
  rw [loopAux_exceeded dispatch maxIters script hall hlen 0 (msgs ++ [userMsg u])]
  congr 1
  omega

/-- C3 witness: a two-reply all-tool-calls script under a ceiling of two
cycles. -/
theorem claim_C3_witness :
    execute_loop (fun _ => "ok") 2
        [Reply.toolCalls [⟨"1", "read", "a"⟩], Reply.toolCalls [⟨"2", "write", "b"⟩]]
        "hi" []
      = RunResult.toolLoopExceeded 2
          ((([] : List Message) ++ [userMsg "hi"])
            ++ (([Reply.toolCalls [⟨"1", "read", "a"⟩],
                  Reply.toolCalls [⟨"2", "write", "b"⟩]].take 2).map
              fun r => cycleBlock (fun _ => "ok") (reqsOf r)).flatten) :=
  claim_C3 (fun _ => "ok") 2
    [Reply.toolCalls [⟨"1", "read", "a"⟩], Reply.toolCalls [⟨"2", "write", "b"⟩]]
    "hi" [] (by decide) (by decide)

/-- C4: resetting with `keep_system=true` leaves exactly the system message
when the transcript starts with one (and nothing otherwise); resetting with
`keep_system=false` leaves an empty transcript; and the only other mutating
operation, `append`, never removes messages — a successful append yields the
old transcript plus the new message (`snapshot` is a pure function in this
model and mutates nothing). -/
theorem claim_C4 (msgs msgs' : List Message) (m s : Message) :
    (msgs.head? = some s → s.role = Role.system →
      reset_conversation true msgs = [s])
    ∧ ((∀ x, msgs.head? = some x → x.role ≠ Role.system) →
      reset_conversation true msgs = [])
    ∧ reset_conversation false msgs = []
    ∧ (appendMessage msgs m = Except.ok msgs' → msgs' = msgs ++ [m]) := by
  refine ⟨?_, ?_, ?_, ?_⟩
  · intro h hs
    simp [reset_conversation, h, hs]
  · intro h
    unfold reset_conversation
    cases hh : msgs.head? with
    | none => simp
    | some x => simp [h x hh]
  · rfl
  · intro h
    unfold appendMessage at h
    by_cases hr : m.role = Role.toolResult
    · rw [if_pos hr] at h
      cases hid : m.tool_call_id with
      | none =>
        rw [hid] at h
        simp at h
      | some i =>
        rw [hid] at h
        by_cases hin : i ∈ openToolCallIds msgs
        · simp [hin] at h
          exact h.symm
        · simp [hin] at h
    · rw [if_neg hr] at h
      injection h with he
      exact he.symm

/-- C4 witness: resetting a system-plus-user transcript. -/
theorem claim_C4_witness :
    reset_conversation true [systemMsg "s", userMsg "u"] = [systemMsg "s"]
    ∧ reset_conversation false [systemMsg "s", userMsg "u"] = [] := by
  have h := claim_C4 [systemMsg "s", userMsg "u"] [] (userMsg "u") (systemMsg "s")
  exact ⟨h.1 rfl rfl, h.2.2.1⟩

/-- A well-formed eviction unit: either a single message that is neither a
tool-call record nor a tool-result, or a tool-call record followed by its
tool-results. -/
def GoodBlock (b : List Message) : Prop :=
  (∃ m, b = [m] ∧ isToolCallMsg m = false ∧ isToolResultMsg m = false)
  ∨ (∃ m res, b = m :: res ∧ isToolCallMsg m = true
      ∧ ∀ r ∈ res, isToolResultMsg r = true)

theorem toolCall_not_result (m : Message) (h : isToolCallMsg m = true) :
    isToolResultMsg m = false := by
  unfold isToolCallMsg at h
  rcases Bool.and_eq_true_iff.mp h with ⟨h1, _⟩
  rw [beq_iff_eq] at h1
  unfold isToolResultMsg
  rw [h1]
  rfl

theorem takeWhile_all_append (pred : Message → Bool) (res rest : List Message)
    (hres : ∀ r ∈ res, pred r = true)
    (hrest : ∀ x, rest.head? = some x → pred x = false) :
    (res ++ rest).takeWhile pred = res
    ∧ (res ++ rest).dropWhile pred = rest := by
  induction res with
  | nil =>
    cases rest with
    | nil => simp
    | cons x t =>
      have hx := hrest x rfl
      simp [List.takeWhile_cons, List.dropWhile_cons, hx]
  | cons r rs ih =>
    have hr := hres r (List.mem_cons_self r rs)
    have hrs : ∀ r' ∈ rs, pred r' = true :=
      fun r' h' => hres r' (List.mem_cons_of_mem _ h')
    obtain ⟨ht, hd⟩ := ih hrs
    simp [List.takeWhile_cons, List.dropWhile_cons, hr, ht, hd]

theorem flatten_head_not_result (bs : List (List Message))
    (h : ∀ b ∈ bs, GoodBlock b) :
    ∀ x, bs.flatten.head? = some x → isToolResultMsg x = false := by
  cases bs with
  | nil => intro x hx; simp at hx
  | cons b bs =>
    intro x hx
    have hb := h b (List.mem_cons_self b bs)
    rcases hb with ⟨m, rfl, _, hm2⟩ | ⟨m, res, rfl, hm1, _⟩
    · simp [List.flatten_cons] at hx
      rw [← hx]
      exact hm2
    · simp [List.flatten_cons] at hx
      rw [← hx]
      exact toolCall_not_result m hm1

theorem groupUnits_cons_plain (m : Message) (rest : List Message)
    (h : isToolCallMsg m = false) :
    groupUnits (m :: rest) = [m] :: groupUnits rest := by
  rw [groupUnits]
  simp [h]

theorem groupUnits_cons_tool (m : Message) (rest : List Message)
    (h : isToolCallMsg m = true) :
    groupUnits (m :: rest)
      = (m :: rest.takeWhile isToolResultMsg)
        :: groupUnits (rest.dropWhile isToolResultMsg) := by
  rw [groupUnits]
  simp [h]

theorem groupUnits_flatten (blocks : List (List Message))
    (h : ∀ b ∈ blocks, GoodBlock b) :
    groupUnits blocks.flatten = blocks := by
  induction blocks with
  | nil =>
    rw [List.flatten_nil, groupUnits]
  | cons b bs ih =>
    have hb := h b (List.mem_cons_self b bs)
    have hbs : ∀ b' ∈ bs, GoodBlock b' :=
      fun b' h' => h b' (List.mem_cons_of_mem _ h')
    rcases hb with ⟨m, rfl, hm1, _⟩ | ⟨m, res, rfl, hm1, hres⟩
    · rw [List.flatten_cons, List.singleton_append,
        groupUnits_cons_plain m _ hm1, ih hbs]
    · rw [List.flatten_cons, List.cons_append, groupUnits_cons_tool m _ hm1]
      obtain ⟨ht, hd⟩ := takeWhile_all_append isToolResultMsg res bs.flatten
        hres (flatten_head_not_result bs hbs)
      rw [ht, hd, ih hbs]

theorem trimUnits_drop (cost : Message → Nat) (budget sysCost : Nat)
    (us : List (List Message)) :
    ∃ j, trimUnits cost budget sysCost us = us.drop j := by
  induction us with
  | nil => exact ⟨0, rfl⟩
  | cons u rest ih =>
    unfold trimUnits
    by_cases hfit : sysCost + unitsCost cost (u :: rest) ≤ budget
    · exact ⟨0, by rw [if_pos hfit, List.drop_zero]⟩
    · obtain ⟨j, hj⟩ := ih
      exact ⟨j + 1, by rw [if_neg hfit, hj, List.drop_succ_cons]⟩

/-- C5: for every cost estimator and budget, the trimmed snapshot of a
transcript consisting of the system message followed by well-formed units
keeps the system message in place and is the system message plus a suffix of
the units: eviction removes whole units from the oldest end, so a tool-call
record and the tool-results of its unit are kept or evicted together — the
snapshot contains the tool-call `Message` iff it contains its
tool-results. -/
theorem claim_C5 (cost : Message → Nat) (budget : Nat) (sys : Message)
    (blocks : List (List Message))
    (hsys : sys.role = Role.system)
    (hgood : ∀ b ∈ blocks, GoodBlock b) :
    ∃ evicted surviving, blocks = evicted ++ surviving
      ∧ snapshotTrimmed cost budget (sys :: blocks.flatten)
          = sys :: surviving.flatten
      ∧ sys ∈ snapshotTrimmed cost budget (sys :: blocks.flatten) := by
  obtain ⟨j, hj⟩ := trimUnits_drop cost budget (cost sys) blocks
  have hsnap : snapshotTrimmed cost budget (sys :: blocks.flatten)
      = sys :: (blocks.drop j).flatten := by
    have hstep : snapshotTrimmed cost budget (sys :: blocks.flatten)
        = if sys.role = Role.system then
            sys :: (trimUnits cost budget (cost sys)
              (groupUnits blocks.flatten)).flatten
          else (trimUnits cost budget 0
            (groupUnits (sys :: blocks.flatten))).flatten := rfl
    rw [hstep, if_pos hsys, groupUnits_flatten blocks hgood, hj]
  exact ⟨blocks.take j, blocks.drop j, (List.take_append_drop j blocks).symm,
    hsnap, by rw [hsnap]; exact List.mem_cons_self _ _⟩

/-- C5 witness: a transcript with one plain unit and one tool-call unit under
a budget that forces eviction of the oldest unit. -/
theorem claim_C5_witness :
    ∃ evicted surviving,
      [[userMsg "u"], [assistantToolMsg [⟨"1", "read", "a"⟩], toolResultMsg "1" "ok"]]
        = evicted ++ surviving
      ∧ snapshotTrimmed (fun _ => 1) 3 (systemMsg "s" ::
          ([[userMsg "u"],
            [assistantToolMsg [⟨"1", "read", "a"⟩], toolResultMsg "1" "ok"]].flatten))
          = systemMsg "s" :: surviving.flatten
      ∧ systemMsg "s" ∈ snapshotTrimmed (fun _ => 1) 3 (systemMsg "s" ::
          ([[userMsg "u"],
            [assistantToolMsg [⟨"1", "read", "a"⟩], toolResultMsg "1" "ok"]].flatten)) :=
  claim_C5 (fun _ => 1) 3 (systemMsg "s")
    [[userMsg "u"], [assistantToolMsg [⟨"1", "read", "a"⟩], toolResultMsg "1" "ok"]]
    rfl
    (by
      intro b hb
      rcases List.mem_cons.mp hb with rfl | hb2
      · exact Or.inl ⟨userMsg "u", rfl, by decide, by decide⟩
      rcases List.mem_cons.mp hb2 with rfl | hb3
      · refine Or.inr ⟨assistantToolMsg [⟨"1", "read", "a"⟩],
          [toolResultMsg "1" "ok"], rfl, by decide, ?_⟩
        intro r hr
        rcases List.mem_cons.mp hr with rfl | hr2
        · decide
        · exact absurd hr2 (by simp)
      · exact absurd hb3 (by simp))

/-- C6: for a turn whose first model reply streams no tool-call fragments,
the streaming loop yields exactly that reply's text fragments and ends, and
the synchronous loop on the atomized version of the same replies returns the
concatenation of those fragments as its final text — so joining everything
the streaming loop yielded equals the synchronous loop's answer, and both
leave the same transcript. -/
theorem claim_C6 (dispatch : ToolCallReq → String) (n : Nat)
    (sr : List Fragment) (rest : List (List Fragment)) (u : String)
    (msgs : List Message)
    (h : assembledCalls sr = []) :
    execute_streaming_loop dispatch (n + 1) (sr :: rest) u msgs
      = (textFragments sr,
         RunResult.ok (String.join (textFragments sr))
           ((msgs ++ [userMsg u])
             ++ [assistantFinal (String.join (textFragments sr))]))
    ∧ execute_loop dispatch (n + 1) ((sr :: rest).map atomize) u msgs
      = RunResult.ok (String.join (textFragments sr))
          ((msgs ++ [userMsg u])
            ++ [assistantFinal (String.join (textFragments sr))]) := by
  constructor
  · unfold execute_streaming_loop
    simp only [streamAux, h]
  · unfold execute_loop
    rw [List.map_cons]
    rw [show atomize sr = Reply.final (String.join (textFragments sr)) from by
      unfold atomize
      rw [if_pos h]]
    simp only [loopAux]

/-- C6 witness: a streamed reply of two text fragments and no tool-call
fragments. -/
theorem claim_C6_witness :
    execute_streaming_loop (fun _ => "") 1
        [[Fragment.text "Hel", Fragment.text "lo"]] "hi" []
      = (textFragments [Fragment.text "Hel", Fragment.text "lo"],
         RunResult.ok
           (String.join (textFragments [Fragment.text "Hel", Fragment.text "lo"]))
           ((([] : List Message) ++ [userMsg "hi"])
             ++ [assistantFinal (String.join
                  (textFragments [Fragment.text "Hel", Fragment.text "lo"]))]))
    ∧ execute_loop (fun _ => "") 1
        ([[Fragment.text "Hel", Fragment.text "lo"]].map atomize) "hi" []
      = RunResult.ok
          (String.join (textFragments [Fragment.text "Hel", Fragment.text "lo"]))
          ((([] : List Message) ++ [userMsg "hi"])
            ++ [assistantFinal (String.join
                 (textFragments [Fragment.text "Hel", Fragment.text "lo"]))]) :=
  claim_C6 (fun _ => "") 0 [Fragment.text "Hel", Fragment.text "lo"] [] "hi" []
    (by decide)
